import Mathlib

/-!
Shallow embedding of the category-cache backend (repository GTiazara/backend-api).

The embedded code is the router variant at src/unnamed/part_000 lines 182-337
(identical to src/unnamed/part_001 lines 1-91) together with the connection
helper src/db/connect.js.  JavaScript values appearing in request bodies and
provider responses are modelled by the inductive `JsVal`; MongoDB collection
state is modelled by `StoreState` (a list of stored documents plus a flag
recording whether the unique index on `categoryName` was created, since the
index may fail to be created and the code continues without it).  The MongoDB
operations `insertOne` / `insertMany { ordered: false }` / `deleteMany` follow
MongoDB's documented semantics: a duplicate-key error (code 11000) occurs
exactly when the unique index exists and the `categoryName` is already present;
an unordered `insertMany` attempts every document and skips the failing ones.
`Math.random()` draws are modelled exactly as rationals `r / 2^53` with
`r : Nat`, so `Math.floor(random * s)` is `r * s / 2^53` in `Nat` arithmetic
and `random < 0.1` is `r * 10 < 2^53`.
-/

namespace WordApi

/-- JavaScript/JSON values as they can occur in `req.body` fields and in parsed
provider responses: `undef` is JavaScript `undefined` (e.g. a missing field). -/
inductive JsVal where
  | undef
  | null
  | jbool (b : Bool)
  | num (n : Int)
  | str (s : String)
  | arr (elems : List JsVal)
  | obj

/-- JavaScript truthiness of a value (`!v` in the source negates this). -/
def truthy : JsVal → Bool
  | .undef => false
  | .null => false
  | .jbool b => b
  | .num n => n != 0
  | .str s => !s.isEmpty
  | .arr _ => true
  | .obj => true

mutual

/-- Structural (BSON-style) equality used by MongoDB when comparing a stored
`categoryName` with an inserted one. -/
def jsEq : JsVal → JsVal → Bool
  | .undef, .undef => true
  | .null, .null => true
  | .jbool a, .jbool b => a == b
  | .num a, .num b => a == b
  | .str a, .str b => a == b
  | .arr xs, .arr ys => jsEqList xs ys
  | .obj, .obj => true
  | _, _ => false

def jsEqList : List JsVal → List JsVal → Bool
  | [], [] => true
  | x :: xs, y :: ys => jsEq x y && jsEqList xs ys
  | _, _ => false

end

mutual

/-- JavaScript `String(v)` coercion (total on JSON-parseable values). -/
def jsToString : JsVal → String
  | .undef => "undefined"
  | .null => "null"
  | .jbool true => "true"
  | .jbool false => "false"
  | .num n => toString n
  | .str s => s
  | .arr xs => String.intercalate "," (jsToStringList xs)
  | .obj => "[object Object]"

def jsToStringList : List JsVal → List String
  | [] => []
  | x :: xs => jsToString x :: jsToStringList xs

end

/-- `Array.isArray(v)`. -/
def isArray : JsVal → Bool
  | .arr _ => true
  | _ => false

/-- `v.length` of a value already known to be an array (0 otherwise; in the
source the length is only read after `Array.isArray` succeeded). -/
def arrLength : JsVal → Nat
  | .arr xs => xs.length
  | _ => 0

/-- `words.every(w => typeof w === 'string')`. -/
def allStrings : JsVal → Bool
  | .arr xs => xs.all fun v => match v with | .str _ => true | _ => false
  | _ => false

/-- Extraction of the string elements of an array value; on bodies that passed
`allStrings` this is exactly the element list. -/
def jsStrs : JsVal → List String
  | .arr xs => xs.filterMap fun v => match v with | .str s => some s | _ => none
  | _ => []

/-- A document handed to the store for insertion: the fields built by the code
before MongoDB assigns an `_id`.  `ai` is the source tag field; the POST
handler builds documents without it (`ai = none`). -/
structure NewDoc where
  categoryName : JsVal
  words : List String
  createdAt : Int
  ai : Option String

/-- A document as persisted: a `NewDoc` plus the store-assigned `_id`. -/
structure StoredDoc where
  id : Nat
  categoryName : JsVal
  words : List String
  createdAt : Int
  ai : Option String

/-- The `word_class` collection: its documents, the `_id` counter used for the
next insertion, and whether `createIndex({categoryName: 1}, {unique: true})`
succeeded (src/unnamed/part_000 lines 196-200 log and continue when it fails,
so the system can run without the index). -/
structure StoreState where
  records : List StoredDoc
  nextId : Nat
  hasUniqueIndex : Bool

/-- Whether some stored document already has the given `categoryName`. -/
def nameTaken (st : StoreState) (c : JsVal) : Bool :=
  st.records.any fun r => jsEq r.categoryName c

/-- MongoDB `collection.insertOne`: with the unique index present, inserting a
duplicate `categoryName` fails with error code 11000 and leaves the collection
unchanged; otherwise the document is appended and assigned the next `_id`. -/
def insertOneDoc (st : StoreState) (d : NewDoc) : Except Nat (StoreState × Nat) :=
  if st.hasUniqueIndex && nameTaken st d.categoryName then .error 11000
  else .ok ({ st with
                records := st.records ++ [⟨st.nextId, d.categoryName, d.words, d.createdAt, d.ai⟩],
                nextId := st.nextId + 1 }, st.nextId)

/-- MongoDB `collection.insertMany(docs, { ordered: false })`: every document
is attempted in order; duplicate-key failures are skipped, the rest are
inserted.  Returns the new state and the number of documents inserted.  The
source awaits this with a `.catch` that only logs, so the partial-failure
error is never propagated. -/
def insertManyUnordered : StoreState → List NewDoc → StoreState × Nat
  | st, [] => (st, 0)
  | st, d :: ds =>
    match insertOneDoc st d with
    | .ok p =>
      let q := insertManyUnordered p.1 ds
      (q.1, q.2 + 1)
    | .error _ => insertManyUnordered st ds

/-- MongoDB `collection.deleteMany({_id: {$in: ids}})`. -/
def deleteByIds (st : StoreState) (ids : List Nat) : StoreState :=
  { st with records := st.records.filter fun r => !(ids.contains r.id) }

/-- `collection.countDocuments()`. -/
def countDocuments (st : StoreState) : Nat := st.records.length

/-- `collection.find({}).sort({createdAt: -1}).limit(1)` then
`latest[0]?.createdAt || null`: the maximal `createdAt`, or `none` when the
collection is empty. -/
def latestCreatedAt (st : StoreState) : Option Int :=
  match st.records.map (fun r => r.createdAt) with
  | [] => none
  | t :: ts => some (ts.foldl max t)

/-- Leading-digit parsing used by `parseIntJs`: `none` when no digit is
consumed (JavaScript `NaN`). -/
def parseDigits (cs : List Char) : Option Nat :=
  let ds := cs.takeWhile Char.isDigit
  if ds.isEmpty then none
  else some (ds.foldl (fun acc c => acc * 10 + (c.toNat - 48)) 0)

/-- JavaScript `parseInt(s, 10)`: skip leading whitespace, accept an optional
sign, read leading digits; `none` models `NaN`. -/
def parseIntJs (s : String) : Option Int :=
  let cs := s.toList.dropWhile fun c => c == ' ' || c == '\t' || c == '\n' || c == '\r'
  match cs with
  | '-' :: rest => (parseDigits rest).map fun n => -(n : Int)
  | '+' :: rest => (parseDigits rest).map fun n => (n : Int)
  | _ => (parseDigits cs).map fun n => (n : Int)

/-- Limit computation of `GET /categories` (src/unnamed/part_000 lines 283-284,
src/unnamed/part_001 lines 38-39):
`let limit = parseInt(req.query.limit, 10);`
`if (isNaN(limit) || limit < 1 || limit > 1000) limit = 100;`
`none` is a request without a `limit` query parameter (`parseInt(undefined)`
is `NaN`). -/
def getLimitJs (q : Option String) : Int :=
  let lim : Option Int :=
    match q with
    | none => none
    | some s => parseIntJs s
  match lim with
  | none => 100
  | some l => if l < 1 || 1000 < l then 100 else l

/-- Denominator of the exact-rational model of `Math.random()`: a draw is
`r / 2^53` with `r < 2^53`. -/
def JSDENOM : Nat := 2 ^ 53

/-- `Math.floor(random * scale)` for a draw `r / 2^53`. -/
def jsFloor (r scale : Nat) : Nat := r * scale / JSDENOM

/-- `Math.random() < 0.1` for a draw `r / 2^53`. -/
def jsCoin (r : Nat) : Bool := r * 10 < JSDENOM

/-- Word pools of `fallbackGenerate` (src/unnamed/part_000 lines 211-213). -/
def adjectives : List String :=
  ["blue", "green", "golden", "ancient", "modern", "silent", "loud", "quick",
   "slow", "bright", "dark", "tiny", "giant"]

def nouns : List String :=
  ["garden", "river", "market", "song", "journey", "castle", "cafe", "street",
   "plate", "device", "machine", "festival", "language", "flavor"]

def wordsPool : List String :=
  ["apple", "stone", "river", "cloud", "light", "sound", "dance", "wind",
   "fire", "earth", "ocean", "mountain", "bird", "leaf", "root", "spark",
   "tone", "glass", "bridge", "path", "seed", "pulse", "orbit", "note", "frame"]

/-- Worker of `jsSetDedup`, keeping the first occurrence of each element
(JavaScript `Set` iteration order). -/
def jsSetDedupGo (seen : List String) : List String → List String
  | [] => []
  | x :: xs => if x ∈ seen then jsSetDedupGo seen xs else x :: jsSetDedupGo (x :: seen) xs

/-- `Array.from(new Set(words))`: de-duplication keeping first occurrences. -/
def jsSetDedup (l : List String) : List String := jsSetDedupGo [] l

/-- Inner `for (let j = 0; ...)` loop of `fallbackGenerate` (src/unnamed/part_000
lines 220-222): each iteration draws a pool index, then a collision coin, and,
when the coin hits (probability 0.1), a numeric suffix below 100.  `k` is the
index of the next `Math.random()` draw; the final draw index is returned. -/
def fallbackWords (rho : Nat → Nat) : Nat → Nat → List String × Nat
  | k, 0 => ([], k)
  | k, j + 1 =>
    let base := wordsPool.getD (jsFloor (rho k) wordsPool.length) ""
    let hit := jsCoin (rho (k + 1))
    let w := if hit then base ++ "_" ++ toString (jsFloor (rho (k + 2)) 100) else base
    let k2 := if hit then k + 3 else k + 2
    let rest := fallbackWords rho k2 j
    (w :: rest.1, rest.2)

/-- Category name of the `i`-th fallback record
(`adjectives[i % len] + ' ' + nouns[i % len] + ' ' + floor(random*10000)`). -/
def fallbackName (rho : Nat → Nat) (i k : Nat) : String :=
  adjectives.getD (i % adjectives.length) "" ++ " " ++
    nouns.getD (i % nouns.length) "" ++ " " ++ toString (jsFloor (rho k) 10000)

/-- One record of `fallbackGenerate` (src/unnamed/part_000 lines 216-223):
`wordsCount = 5 + (i % 16)` words are drawn, de-duplicated through a `Set`
and truncated with `.slice(0, 20)`; the record is tagged `No-ai-fallback`. -/
def fallbackDoc (now : Int) (rho : Nat → Nat) (i k : Nat) : NewDoc :=
  { categoryName := .str (fallbackName rho i k),
    words := (jsSetDedup (fallbackWords rho (k + 1) (5 + i % 16)).1).take 20,
    createdAt := now,
    ai := some "No-ai-fallback" }

/-- Outer loop of `fallbackGenerate`: `i` is the loop counter, `k` the index of
the next random draw, the last argument the number of records still to build. -/
def fallbackGo (now : Int) (rho : Nat → Nat) : Nat → Nat → Nat → List NewDoc
  | _, _, 0 => []
  | i, k, m + 1 =>
    fallbackDoc now rho i k ::
      fallbackGo now rho (i + 1) ((fallbackWords rho (k + 1) (5 + i % 16)).2) m

/-- `fallbackGenerate(n)` (src/unnamed/part_000 lines 210-226): the local,
provider-free generator. -/
def fallbackGenerate (n : Nat) (now : Int) (rho : Nat → Nat) : List NewDoc :=
  fallbackGo now rho 0 0 n

/-- Provider configuration: which API keys are present in the environment. -/
structure Env where
  geminiKey : Bool
  mistralKey : Bool

/-- One element of the JSON array a provider response was parsed into, reduced
to its two field reads: `p.categoryName` and `p.words` (`undef` when the
element has no such field). -/
structure RawItem where
  categoryName : JsVal
  words : JsVal

/-- Outcome of one provider attempt, at the boundary of the external SDK and
`JSON.parse`: `noText` when `response?.…?.text?.()` / `…content` is falsy (the
branch body is skipped); `throws` when any step inside the `try` throws
(network error, unparseable JSON, non-array parse result, an element on which
the field reads throw); `parsed items` when a JSON array was obtained. -/
inductive ProviderOutcome where
  | noText
  | throws
  | parsed (items : List RawItem)

/-- Provider responses consumed by one `generateCategories` call. -/
structure ProviderRun where
  gemini : ProviderOutcome
  mistral : ProviderOutcome

/-- `(p.words || []).slice(0, 20).map(String)`: a falsy `words` becomes `[]`;
an array is truncated to 20 elements and coerced elementwise; `.slice` on any
other truthy value throws (`none`). -/
def normalizeWords (v : JsVal) : Option (List String) :=
  if truthy v then
    match v with
    | .arr xs => some (jsToStringList (xs.take 20))
    | _ => none
  else some []

/-- Normalization of one parsed provider item (src/unnamed/part_000 line 243):
`{categoryName: String(p.categoryName), words: …, createdAt: now, ai: tag}`. -/
def normalizeItem (now : Int) (tag : String) (p : RawItem) : Option NewDoc :=
  (normalizeWords p.words).map fun ws =>
    { categoryName := .str (jsToString p.categoryName),
      words := ws, createdAt := now, ai := some tag }

/-- One provider branch body: `none` means the branch fell through to the next
provider, with the `Bool` recording whether the `catch` logged a warning
(`noText` falls through silently; `throws` and a normalization throw are
caught and logged).  A parsed array is returned even when empty. -/
def tryProvider (o : ProviderOutcome) (now : Int) (tag : String) :
    Option (List NewDoc) × Bool :=
  match o with
  | .noText => (none, false)
  | .throws => (none, true)
  | .parsed items =>
    match items.mapM (normalizeItem now tag) with
    | some ds => (some ds, false)
    | none => (none, true)

/-- A provider branch including its `if (KEY)` guard: with no key configured
the branch is skipped entirely (nothing attempted, nothing logged). -/
def providerAttempt (key : Bool) (o : ProviderOutcome) (now : Int) (tag : String) :
    Option (List NewDoc) × Bool :=
  if key then tryProvider o now tag else (none, false)

/-- `generateCategories(n)` (src/unnamed/part_000 lines 228-272): try Gemini,
then Mistral, then the local fallback.  Returns the produced records together
with the list of `console.warn` messages emitted. -/
def generateCategories (env : Env) (run : ProviderRun) (n : Nat) (now : Int)
    (rho : Nat → Nat) : List NewDoc × List String :=
  let g := providerAttempt env.geminiKey run.gemini now "gemini"
  match g.1 with
  | some ds => (ds, [])
  | none =>
    let log1 : List String := if g.2 then ["Gemini generation failed"] else []
    let m := providerAttempt env.mistralKey run.mistral now "mistral"
    match m.1 with
    | some ds => (ds, log1)
    | none =>
      let log2 := if m.2 then log1 ++ ["Mistral generation failed"] else log1
      (fallbackGenerate n now rho, log2)

/-- `24*60*60*1000` (src/unnamed/part_000 line 291). -/
def oneDayMs : Int := 24 * 60 * 60 * 1000

/-- Staleness condition of the refresh branch, computed from the pre-call
snapshot: `!lastCreatedAt || (now - lastCreatedAt >= oneDayMs)`. -/
def staleSnapshot (st : StoreState) (now : Int) : Bool :=
  match latestCreatedAt st with
  | none => true
  | some t => decide (oneDayMs ≤ now - t)

/-- Side-effect summary of one `EnsureFresh` pass. -/
structure FreshLog where
  pruneFired : Bool
  freshFired : Bool
  deletedCount : Nat
  pruneInserted : Nat
  freshInserted : Nat
deriving DecidableEq, Repr

/-- Refresh/eviction controller inlined in `GET /categories`
(src/unnamed/part_000 lines 287-305): read `count` and the staleness snapshot;
if `count > 1000` delete the sampled ids (guarded by `if (toRemove.length)`)
and insert a generated batch `gen1`; then, if the *pre-call* snapshot was
empty or at least a day old, insert a second generated batch `gen2`.  The
sampled ids and the two batches produced by `generateCategories(100)` are
parameters. -/
def ensureFresh (st : StoreState) (now : Int) (sampleIds : List Nat)
    (gen1 gen2 : List NewDoc) : StoreState × FreshLog :=
  let count := countDocuments st
  let stale := staleSnapshot st now
  let pr : StoreState × Bool × Nat × Nat :=
    if 1000 < count then
      let stDel := if sampleIds.isEmpty then st else deleteByIds st sampleIds
      let p := insertManyUnordered stDel gen1
      (p.1, true, countDocuments st - countDocuments stDel, p.2)
    else (st, false, 0, 0)
  let fr : StoreState × Bool × Nat :=
    if stale then
      let q := insertManyUnordered pr.1 gen2
      (q.1, true, q.2)
    else (pr.1, false, 0)
  (fr.1, ⟨pr.2.1, fr.2.1, pr.2.2.1, pr.2.2.2, fr.2.2⟩)

/-- HTTP results of `POST /categories` after the collection is available (the
not-ready 503 path is the failure of `getCollection` and precedes this). -/
inductive PostResult where
  | badRequest
  | created (id : Nat)
  | conflict
  | serverError
deriving DecidableEq, Repr

/-- Validation condition of `POST /categories` (src/unnamed/part_000 line 324):
`!categoryName || !Array.isArray(words) || words.length < 1 ||
words.length > 20 || !words.every(w => typeof w === 'string')`. -/
def invalidBody (c w : JsVal) : Bool :=
  !truthy c || !isArray w || arrLength w < 1 || 20 < arrLength w || !allStrings w

/-- `POST /categories` handler body (src/unnamed/part_000 lines 323-334):
validate, then `insertOne({categoryName, words, createdAt: new Date()})` — note
the document carries no `ai` field — answering 201/409/500. -/
def postCategories (st : StoreState) (c w : JsVal) (now : Int) :
    StoreState × PostResult :=
  if invalidBody c w then (st, .badRequest)
  else
    match insertOneDoc st { categoryName := c, words := jsStrs w, createdAt := now, ai := none } with
    | .ok p => (p.1, .created p.2)
    | .error e => if e == 11000 then (st, .conflict) else (st, .serverError)

/-- Shape predicate the specification states for `categoryName` on create:
a non-empty string.  Declared for comparison with the code's `invalidBody`;
not derived from the source. -/
def specNonEmptyString : JsVal → Bool
  | .str s => !s.isEmpty
  | _ => false

/-- Outcome of one initialization attempt of the lazy collection handle. -/
inductive InitOutcome where
  | success
  | failure
deriving DecidableEq, Repr

/-- Module state of src/unnamed/part_001 lines 5-27: the memoized
`collectionPromise`, recording the settled outcome once an initialization has
run (`none` before the first call). -/
structure GcState where
  collectionPromise : Option InitOutcome
deriving DecidableEq, Repr

/-- `getCollection()` (src/unnamed/part_001 lines 7-27): the promise is created
at most once — a cached promise (whatever its outcome) is returned without a
new attempt; the returned `Bool` records whether this call started a fresh
initialization.  `attempt` is the outcome the initialization would have if
this call starts one. -/
def getCollection (attempt : InitOutcome) (st : GcState) :
    GcState × InitOutcome × Bool :=
  match st.collectionPromise with
  | some o => (st, o, false)
  | none => (⟨some attempt⟩, attempt, true)

/-- Sequential trace of `getCollection` calls: call `i` would produce outcome
`oracle i` if it starts an initialization; returns the final state and, per
call, the outcome observed and whether a fresh attempt was started. -/
def runGetCollection (oracle : Nat → InitOutcome) :
    Nat → Nat → GcState → GcState × List (InitOutcome × Bool)
  | _, 0, st => (st, [])
  | i, m + 1, st =>
    let r := getCollection (oracle i) st
    let rest := runGetCollection oracle (i + 1) m r.1
    (rest.1, r.2 :: rest.2)

/-- Number of fresh initialization attempts in a trace. -/
def countAttempts (tr : List (InitOutcome × Bool)) : Nat :=
  (tr.filter fun p => p.2).length

/-- Module state of src/db/connect.js: whether a connected client is cached. -/
structure ClientState where
  cachedClient : Bool
deriving DecidableEq, Repr

/-- `getClient()` (src/db/connect.js lines 13-32): a cached client is returned
immediately; otherwise a new client is created and connected — on success it
is cached, on failure the error propagates and `cachedClient` stays unset, so
a later call attempts again.  The `Bool` records whether a connection attempt
was made. -/
def getClient (attempt : InitOutcome) (st : ClientState) :
    ClientState × InitOutcome × Bool :=
  if st.cachedClient then (st, .success, false)
  else
    match attempt with
    | .success => (⟨true⟩, .success, true)
    | .failure => (st, .failure, true)

/-! Helper lemmas. -/

theorem jsSetDedupGo_nodup (l : List String) :
    ∀ seen, (jsSetDedupGo seen l).Nodup ∧ ∀ x ∈ jsSetDedupGo seen l, x ∉ seen := by
  induction l with
  | nil => intro seen; simp [jsSetDedupGo]
  | cons x xs ih =>
    intro seen
    by_cases hx : x ∈ seen
    · simpa [jsSetDedupGo, hx] using ih seen
    · have h2 := ih (x :: seen)
      refine ⟨?_, ?_⟩
      · simp only [jsSetDedupGo, hx, if_false, List.nodup_cons]
        exact ⟨fun hmem => (h2.2 x hmem) (List.mem_cons_self x seen), h2.1⟩
      · intro y hy
        simp only [jsSetDedupGo, hx, if_false, List.mem_cons] at hy
        rcases hy with rfl | hy
        · exact hx
        · have := h2.2 y hy
          intro hc
          exact this (List.mem_cons_of_mem _ hc)

theorem jsSetDedup_nodup (l : List String) : (jsSetDedup l).Nodup :=
  (jsSetDedupGo_nodup l []).1

theorem jsSetDedup_cons (x : String) (xs : List String) :
    jsSetDedup (x :: xs) = x :: jsSetDedupGo [x] xs := by
  simp [jsSetDedup, jsSetDedupGo]

theorem fallbackWords_fst_cons (rho : Nat → Nat) (k j : Nat) :
    ∃ w rest, (fallbackWords rho k (j + 1)).1 = w :: rest := by
  simp [fallbackWords]

theorem fallbackDoc_words_nodup (now : Int) (rho : Nat → Nat) (i k : Nat) :
    (fallbackDoc now rho i k).words.Nodup :=
  (jsSetDedup_nodup _).sublist (List.take_sublist _ _)

theorem fallbackDoc_words_le (now : Int) (rho : Nat → Nat) (i k : Nat) :
    (fallbackDoc now rho i k).words.length ≤ 20 :=
  List.length_take_le _ _

theorem fallbackDoc_words_pos (now : Int) (rho : Nat → Nat) (i k : Nat) :
    1 ≤ (fallbackDoc now rho i k).words.length := by
  have h5 : 5 + i % 16 = (4 + i % 16) + 1 := by omega
  obtain ⟨w, rest, hw⟩ := fallbackWords_fst_cons rho (k + 1) (4 + i % 16)
  simp only [fallbackDoc, h5, hw, jsSetDedup_cons, List.take_succ_cons, List.length_cons]
  omega

theorem fallbackName_ne_empty (rho : Nat → Nat) (i k : Nat) :
    fallbackName rho i k ≠ "" := by
  intro h
  have hlen := congrArg String.length h
  simp only [fallbackName, String.length_append] at hlen
  have h1 : (" " : String).length = 1 := rfl
  have h0 : ("" : String).length = 0 := rfl
  simp only [h1, h0] at hlen
  omega

theorem fallbackGo_length (now : Int) (rho : Nat → Nat) :
    ∀ m i k, (fallbackGo now rho i k m).length = m := by
  intro m
  induction m with
  | zero => intro i k; rfl
  | succ m ih => intro i k; simp [fallbackGo, ih]

theorem fallbackGo_mem (now : Int) (rho : Nat → Nat) :
    ∀ m i k d, d ∈ fallbackGo now rho i k m → ∃ i2 k2, d = fallbackDoc now rho i2 k2 := by
  intro m
  induction m with
  | zero => intro i k d hd; simp [fallbackGo] at hd
  | succ m ih =>
    intro i k d hd
    simp only [fallbackGo, List.mem_cons] at hd
    rcases hd with rfl | hd
    · exact ⟨i, k, rfl⟩
    · exact ih _ _ d hd

theorem fallbackGenerate_length (n : Nat) (now : Int) (rho : Nat → Nat) :
    (fallbackGenerate n now rho).length = n :=
  fallbackGo_length now rho n 0 0

theorem fallbackGenerate_mem (n : Nat) (now : Int) (rho : Nat → Nat) (d : NewDoc)
    (hd : d ∈ fallbackGenerate n now rho) : ∃ i k, d = fallbackDoc now rho i k :=
  fallbackGo_mem now rho n 0 0 d hd

theorem jsFloor_lt (r scale : Nat) (hr : r < JSDENOM) (hs : 0 < scale) :
    jsFloor r scale < scale := by
  have h1 : r * scale < JSDENOM * scale := (Nat.mul_lt_mul_right hs).mpr hr
  exact Nat.div_lt_of_lt_mul h1

theorem getD_mem_of_lt {α : Type} (l : List α) (i : Nat) (d : α) (h : i < l.length) :
    l.getD i d ∈ l := by
  rw [List.getD_eq_getElem l d h]
  exact List.getElem_mem h

theorem insertManyUnordered_le (ds : List NewDoc) :
    ∀ st, (insertManyUnordered st ds).2 ≤ ds.length := by
  induction ds with
  | nil => intro st; simp [insertManyUnordered]
  | cons d ds ih =>
    intro st
    simp only [insertManyUnordered]
    cases insertOneDoc st d with
    | ok p => simpa using Nat.add_le_add_right (ih p.1) 1
    | error e => exact Nat.le_trans (ih st) (Nat.le_succ _)

theorem jsToStringList_length (l : List JsVal) : (jsToStringList l).length = l.length := by
  induction l with
  | nil => rfl
  | cons x xs ih => simp [jsToStringList, ih]

theorem jsStrs_length_of_allStrings (w : JsVal) (h : allStrings w = true) :
    (jsStrs w).length = arrLength w := by
  cases w with
  | arr xs =>
    simp only [allStrings, List.all_eq_true] at h
    simp only [jsStrs, arrLength]
    induction xs with
    | nil => rfl
    | cons x xs ih =>
      have hx := h x (List.mem_cons_self x xs)
      cases x <;> simp_all [List.filterMap_cons]
  | undef => simp [allStrings] at h
  | null => simp [allStrings] at h
  | jbool b => simp [allStrings] at h
  | num n => simp [allStrings] at h
  | str s => simp [allStrings] at h
  | obj => simp [allStrings] at h

theorem mapM_option_mem {α β : Type} (f : α → Option β) :
    ∀ (l : List α) (rs : List β), l.mapM f = some rs → ∀ b ∈ rs, ∃ a ∈ l, f a = some b := by
  intro l
  induction l with
  | nil =>
    intro rs h b hb
    simp only [List.mapM_nil, pure, Option.some.injEq] at h
    subst h
    simp at hb
  | cons x xs ih =>
    intro rs h b hb
    simp only [List.mapM_cons, bind, Option.bind_eq_some, pure, Option.some.injEq] at h
    obtain ⟨y, hy, ys, hys, rfl⟩ := h
    rcases List.mem_cons.mp hb with rfl | hb2
    · exact ⟨x, List.mem_cons_self x xs, hy⟩
    · obtain ⟨a, ha, hfa⟩ := ih ys hys b hb2
      exact ⟨a, List.mem_cons_of_mem _ ha, hfa⟩

theorem staleSnapshot_eq_false (st : StoreState) (now t : Int)
    (hl : latestCreatedAt st = some t) (hf : now - t < oneDayMs) :
    staleSnapshot st now = false := by
  simp only [staleSnapshot, hl, decide_eq_false_iff_not]
  omega

theorem ensureFresh_noop (st : StoreState) (now : Int) (sampleIds : List Nat)
    (gen1 gen2 : List NewDoc) (hc : countDocuments st ≤ 1000)
    (hs : staleSnapshot st now = false) :
    ensureFresh st now sampleIds gen1 gen2 = (st, ⟨false, false, 0, 0, 0⟩) := by
  simp [ensureFresh, Nat.not_lt.mpr hc, hs]

theorem runGetCollection_cached (oracle : Nat → InitOutcome) (o : InitOutcome) :
    ∀ m i, runGetCollection oracle i m ⟨some o⟩ = (⟨some o⟩, List.replicate m (o, false)) := by
  intro m
  induction m with
  | zero => intro i; rfl
  | succ m ih => intro i; simp [runGetCollection, getCollection, ih, List.replicate]

theorem countAttempts_replicate_false (m : Nat) (o : InitOutcome) :
    countAttempts (List.replicate m (o, false)) = 0 := by
  induction m with
  | zero => rfl
  | succ m ih => simp [countAttempts, List.replicate] at ih ⊢

theorem normalizeWords_le (v : JsVal) (ws : List String)
    (h : normalizeWords v = some ws) : ws.length ≤ 20 := by
  cases v with
  | undef => simp [normalizeWords, truthy] at h; subst h; simp
  | null => simp [normalizeWords, truthy] at h; subst h; simp
  | jbool b =>
    cases b with
    | false => simp [normalizeWords, truthy] at h; subst h; simp
    | true => simp [normalizeWords, truthy] at h
  | num n =>
    by_cases hn : (n != 0) = true
    · simp [normalizeWords, truthy, hn] at h
    · simp only [Bool.not_eq_true] at hn
      simp [normalizeWords, truthy, hn] at h
      subst h; simp
  | str s =>
    by_cases hs : s.isEmpty = true
    · simp [normalizeWords, truthy, hs] at h
      subst h; simp
    · simp only [Bool.not_eq_true] at hs
      simp [normalizeWords, truthy, hs] at h
  | arr xs =>
    simp [normalizeWords, truthy] at h
    subst h
    rw [jsToStringList_length]
    exact List.length_take_le _ _
  | obj => simp [normalizeWords, truthy] at h

theorem tryProvider_mem (o : ProviderOutcome) (now : Int) (tag : String) (ds : List NewDoc)
    (h : (tryProvider o now tag).1 = some ds) :
    ∀ d ∈ ds, d.ai = some tag ∧ d.words.length ≤ 20 := by
  cases o with
  | noText => simp [tryProvider] at h
  | throws => simp [tryProvider] at h
  | parsed items =>
    simp only [tryProvider] at h
    cases hm : items.mapM (normalizeItem now tag) with
    | none => rw [hm] at h; simp at h
    | some rs =>
      rw [hm] at h
      simp only [Option.some.injEq] at h
      subst h
      intro d hd
      obtain ⟨p, _, hnorm⟩ := mapM_option_mem _ items rs hm d hd
      simp only [normalizeItem, Option.map_eq_some'] at hnorm
      obtain ⟨ws, hws, hd2⟩ := hnorm
      subst hd2
      exact ⟨rfl, normalizeWords_le _ _ hws⟩

theorem providerAttempt_some (key : Bool) (o : ProviderOutcome) (now : Int) (tag : String)
    (ds : List NewDoc) (h : (providerAttempt key o now tag).1 = some ds) :
    (tryProvider o now tag).1 = some ds := by
  cases key with
  | false => simp [providerAttempt] at h
  | true => simpa [providerAttempt] using h

theorem generateCategories_eq (env : Env) (run : ProviderRun) (n : Nat) (now : Int)
    (rho : Nat → Nat) :
    (∃ ds, (providerAttempt env.geminiKey run.gemini now "gemini").1 = some ds
        ∧ (generateCategories env run n now rho).1 = ds)
    ∨ (∃ ds, (providerAttempt env.geminiKey run.gemini now "gemini").1 = none
        ∧ (providerAttempt env.mistralKey run.mistral now "mistral").1 = some ds
        ∧ (generateCategories env run n now rho).1 = ds)
    ∨ ((providerAttempt env.geminiKey run.gemini now "gemini").1 = none
        ∧ (providerAttempt env.mistralKey run.mistral now "mistral").1 = none
        ∧ (generateCategories env run n now rho).1 = fallbackGenerate n now rho) := by
  cases hg : (providerAttempt env.geminiKey run.gemini now "gemini").1 with
  | some ds => exact Or.inl ⟨ds, rfl, by simp [generateCategories, hg]⟩
  | none =>
    cases hm : (providerAttempt env.mistralKey run.mistral now "mistral").1 with
    | some ds => exact Or.inr (Or.inl ⟨ds, rfl, rfl, by simp [generateCategories, hg, hm]⟩)
    | none => exact Or.inr (Or.inr ⟨rfl, rfl, by simp [generateCategories, hg, hm]⟩)

theorem ensureFresh_log (st : StoreState) (now : Int) (sampleIds : List Nat)
    (gen1 gen2 : List NewDoc) :
    ((ensureFresh st now sampleIds gen1 gen2).2.pruneFired = decide (1000 < countDocuments st))
    ∧ ((ensureFresh st now sampleIds gen1 gen2).2.freshFired = staleSnapshot st now)
    ∧ ((ensureFresh st now sampleIds gen1 gen2).2.pruneInserted ≤ gen1.length)
    ∧ ((ensureFresh st now sampleIds gen1 gen2).2.freshInserted ≤ gen2.length)
    ∧ (staleSnapshot st now = false →
        (ensureFresh st now sampleIds gen1 gen2).2.freshInserted = 0) := by
  by_cases h1 : 1000 < countDocuments st <;>
    cases h2 : staleSnapshot st now <;>
      simp [ensureFresh, h1, h2, insertManyUnordered_le]

theorem countAttempts_cons (p : InitOutcome × Bool) (tr : List (InitOutcome × Bool)) :
    countAttempts (p :: tr) = (if p.2 then 1 else 0) + countAttempts tr := by
  cases hp : p.2 <;> simp [countAttempts, List.filter_cons, hp, Nat.add_comm]

theorem foldl_max_replicate (m : Nat) (t : Int) : (List.replicate m t).foldl max t = t := by
  induction m with
  | zero => rfl
  | succ m ih => simp [List.replicate_succ, List.foldl_cons, max_self, ih]

theorem latestCreatedAt_replicate (n : Nat) (d : StoredDoc) (nid : Nat) (idx : Bool)
    (hn : 0 < n) :
    latestCreatedAt ⟨List.replicate n d, nid, idx⟩ = some d.createdAt := by
  cases n with
  | zero => omega
  | succ m =>
    simp only [latestCreatedAt, List.replicate_succ, List.map_cons, List.map_replicate]
    rw [foldl_max_replicate]

/-! Claim theorems. -/

/-- Claim C2, counterexample: the claim says `GET /categories?limit=50000` is
served with the limit clamped to 1000; the code instead replaces any
out-of-range value with the default 100, so `limit=50000` is served with
limit 100, not 1000. -/
theorem claim2_counterexample :
    getLimitJs (some "50000") = 100 ∧ getLimitJs (some "50000") ≠ 1000 := by
  constructor
  · decide
  · decide

/-- Claim C2, amended: missing, invalid and out-of-range `limit` values are all
replaced by the default 100 (there is no clamp to 1000): `limit=abc`, a missing
parameter and `limit=50000` are each served with limit 100, and any parsed
value within `[1, 1000]` is used as-is. -/
theorem claim2_limit_default :
    getLimitJs (some "abc") = 100 ∧ getLimitJs none = 100
    ∧ getLimitJs (some "50000") = 100
    ∧ ∀ (s : String) (l : Int), parseIntJs s = some l → 1 ≤ l → l ≤ 1000 →
        getLimitJs (some s) = l := by
  refine ⟨by decide, by decide, by decide, ?_⟩
  intro s l hp h1 h2
  simp only [getLimitJs, hp]
  have hcond : (decide (l < 1) || decide (1000 < l)) = false := by
    simp only [Bool.or_eq_false_iff, decide_eq_false_iff_not]
    omega
  simp [hcond]

/-- Claim C2, witness: `limit=7` parses and is within range, so the request is
served with limit 7. -/
theorem claim2_witness : parseIntJs "7" = some 7 ∧ getLimitJs (some "7") = 7 :=
  ⟨by decide, claim2_limit_default.2.2.2 "7" 7 (by decide) (by decide) (by decide)⟩

/-- Claim C4 (confirmed): the capacity branch and the freshness branch of
`EnsureFresh` are both evaluated against the pre-call snapshot (`pruneFired`
is exactly `count > 1000` on the entry state, `freshFired` is exactly the
staleness of the entry snapshot, whatever the other branch did); with two
generated batches of 100 a single call inserts at most 200 records; and when
`count = 1500` with a fresh snapshot only the capacity branch fires and the
freshness branch inserts nothing. -/
theorem claim4_snapshot_independent (st : StoreState) (now : Int) (sampleIds : List Nat)
    (gen1 gen2 : List NewDoc) (hg1 : gen1.length = 100) (hg2 : gen2.length = 100) :
    ((ensureFresh st now sampleIds gen1 gen2).2.pruneFired
        = decide (1000 < countDocuments st))
    ∧ ((ensureFresh st now sampleIds gen1 gen2).2.freshFired = staleSnapshot st now)
    ∧ ((ensureFresh st now sampleIds gen1 gen2).2.pruneInserted
        + (ensureFresh st now sampleIds gen1 gen2).2.freshInserted ≤ 200)
    ∧ (countDocuments st = 1500 → staleSnapshot st now = false →
        (ensureFresh st now sampleIds gen1 gen2).2.pruneFired = true
        ∧ (ensureFresh st now sampleIds gen1 gen2).2.freshFired = false
        ∧ (ensureFresh st now sampleIds gen1 gen2).2.freshInserted = 0) := by
  obtain ⟨e1, e2, e3, e4, e5⟩ := ensureFresh_log st now sampleIds gen1 gen2
  rw [hg1] at e3
  rw [hg2] at e4
  refine ⟨e1, e2, by omega, ?_⟩
  intro hcount hstale
  refine ⟨?_, ?_, e5 hstale⟩
  · rw [e1, hcount]
    decide
  · rw [e2, hstale]

/-- Claim C4, witness: a store of 1500 records whose latest record is 5 ms old
is over capacity but fresh; with two batches of 100 the capacity branch fires
and the freshness branch inserts nothing. -/
theorem claim4_witness :
    (List.replicate 100 (⟨.str "g", ["w"], 5, some "gemini"⟩ : NewDoc)).length = 100
    ∧ countDocuments ⟨List.replicate 1500 (⟨0, .str "x", ["w"], 0, none⟩ : StoredDoc),
        1500, true⟩ = 1500
    ∧ staleSnapshot ⟨List.replicate 1500 (⟨0, .str "x", ["w"], 0, none⟩ : StoredDoc),
        1500, true⟩ 5 = false
    ∧ ((ensureFresh ⟨List.replicate 1500 (⟨0, .str "x", ["w"], 0, none⟩ : StoredDoc),
          1500, true⟩ 5 [0]
          (List.replicate 100 (⟨.str "g", ["w"], 5, some "gemini"⟩ : NewDoc))
          (List.replicate 100 (⟨.str "g", ["w"], 5, some "gemini"⟩ : NewDoc))).2.pruneFired = true
        ∧ (ensureFresh ⟨List.replicate 1500 (⟨0, .str "x", ["w"], 0, none⟩ : StoredDoc),
          1500, true⟩ 5 [0]
          (List.replicate 100 (⟨.str "g", ["w"], 5, some "gemini"⟩ : NewDoc))
          (List.replicate 100 (⟨.str "g", ["w"], 5, some "gemini"⟩ : NewDoc))).2.freshFired = false
        ∧ (ensureFresh ⟨List.replicate 1500 (⟨0, .str "x", ["w"], 0, none⟩ : StoredDoc),
          1500, true⟩ 5 [0]
          (List.replicate 100 (⟨.str "g", ["w"], 5, some "gemini"⟩ : NewDoc))
          (List.replicate 100 (⟨.str "g", ["w"], 5, some "gemini"⟩ : NewDoc))).2.freshInserted = 0) := by
  have hlat : latestCreatedAt ⟨List.replicate 1500 (⟨0, .str "x", ["w"], 0, none⟩ : StoredDoc),
      1500, true⟩ = some 0 :=
    latestCreatedAt_replicate 1500 _ 1500 true (by norm_num)
  have hstale := staleSnapshot_eq_false _ 5 0 hlat (by decide)
  refine ⟨by simp only [List.length_replicate],
    by simp only [countDocuments, List.length_replicate], hstale, ?_⟩
  exact (claim4_snapshot_independent _ 5 [0] _ _ (by simp only [List.length_replicate])
    (by simp only [List.length_replicate])).2.2.2
    (by simp only [countDocuments, List.length_replicate]) hstale

/-- Claim C9 (confirmed): on a store below capacity whose latest record is
within the 24h window, `EnsureFresh` is a no-op (state unchanged, nothing
fired), and the immediately following second call performs zero deletes and
zero inserts. -/
theorem claim9_second_call_noop (st : StoreState) (now t : Int)
    (sampleIds sample2 : List Nat) (gen1 gen2 gen3 gen4 : List NewDoc)
    (hc : countDocuments st ≤ 1000)
    (hl : latestCreatedAt st = some t)
    (hf : now - t < oneDayMs) :
    ensureFresh st now sampleIds gen1 gen2 = (st, ⟨false, false, 0, 0, 0⟩)
    ∧ (ensureFresh (ensureFresh st now sampleIds gen1 gen2).1 now sample2 gen3 gen4).2
        = ⟨false, false, 0, 0, 0⟩ := by
  have hs := staleSnapshot_eq_false st now t hl hf
  have h1 := ensureFresh_noop st now sampleIds gen1 gen2 hc hs
  refine ⟨h1, ?_⟩
  rw [h1]
  have h2 := ensureFresh_noop st now sample2 gen3 gen4 hc hs
  rw [show ((st, (⟨false, false, 0, 0, 0⟩ : FreshLog))).1 = st from rfl, h2]

/-- Claim C9, witness: a one-record store whose record is 5 ms old is below
capacity and fresh, so the first `EnsureFresh` call leaves it unchanged. -/
theorem claim9_witness :
    countDocuments ⟨[⟨0, .str "a", ["w"], 0, some "No-ai-fallback"⟩], 1, true⟩ ≤ 1000
    ∧ ensureFresh ⟨[⟨0, .str "a", ["w"], 0, some "No-ai-fallback"⟩], 1, true⟩ 5 [] [] []
        = (⟨[⟨0, .str "a", ["w"], 0, some "No-ai-fallback"⟩], 1, true⟩,
           ⟨false, false, 0, 0, 0⟩) :=
  ⟨by decide,
   (claim9_second_call_noop _ 5 0 [] [] [] [] [] [] (by decide) (by decide) (by decide)).1⟩

/-- Claim C5, counterexample: the claim says a failed initialization is retried
by a later `getCollection` call; in fact the rejected promise stays cached:
with a first call whose initialization fails and a second call whose fresh
attempt would succeed, the second call starts no fresh attempt (`false`) and
still observes the cached failure. -/
theorem claim5_counterexample :
    runGetCollection (fun i => if i = 0 then InitOutcome.failure else InitOutcome.success)
        0 2 ⟨none⟩
      = (⟨some .failure⟩, [(.failure, true), (.failure, false)]) := by
  decide

/-- Claim C5, amended: `getCollection` is single-flight — any number of calls
performs exactly one initialization attempt and every call observes the first
attempt's outcome, success or failure alike, so a failure is cached forever
and never retried.  By contrast `getClient` in src/db/connect.js does not
cache a failure (the cache stays empty and the next call makes a fresh
attempt), but it is not single-flight. -/
theorem claim5_single_flight (oracle : Nat → InitOutcome) (n : Nat) :
    countAttempts (runGetCollection oracle 0 (n + 1) ⟨none⟩).2 = 1
    ∧ (∀ p ∈ (runGetCollection oracle 0 (n + 1) ⟨none⟩).2, p.1 = oracle 0)
    ∧ getClient .failure ⟨false⟩ = (⟨false⟩, .failure, true)
    ∧ (∀ a, (getClient a (getClient .failure ⟨false⟩).1).2.2 = true) := by
  have hrun : runGetCollection oracle 0 (n + 1) ⟨none⟩
      = (⟨some (oracle 0)⟩, (oracle 0, true) :: List.replicate n (oracle 0, false)) := by
    simp [runGetCollection, getCollection, runGetCollection_cached]
  refine ⟨?_, ?_, rfl, ?_⟩
  · rw [hrun]
    rw [show ((⟨some (oracle 0)⟩, (oracle 0, true) :: List.replicate n (oracle 0, false))
        : GcState × List (InitOutcome × Bool)).2
        = (oracle 0, true) :: List.replicate n (oracle 0, false) from rfl]
    rw [countAttempts_cons]
    simp [countAttempts_replicate_false]
  · intro p hp
    rw [hrun] at hp
    simp only [List.mem_cons] at hp
    rcases hp with rfl | hp
    · rfl
    · rw [List.eq_of_mem_replicate hp]
  · intro a
    cases a <;> rfl

/-- Claim C5, witness: with two calls and a successful first initialization,
exactly one attempt is made, and a failed `getClient` call leaves the client
cache empty. -/
theorem claim5_witness :
    countAttempts (runGetCollection (fun _ => InitOutcome.success) 0 2 ⟨none⟩).2 = 1
    ∧ getClient .failure ⟨false⟩ = (⟨false⟩, .failure, true) :=
  ⟨(claim5_single_flight (fun _ => .success) 1).1,
   (claim5_single_flight (fun _ => .success) 1).2.2.1⟩

theorem invalidBody_false_iff (c w : JsVal) :
    invalidBody c w = false ↔ truthy c = true ∧ isArray w = true
      ∧ 1 ≤ arrLength w ∧ arrLength w ≤ 20 ∧ allStrings w = true := by
  simp only [invalidBody, Bool.or_eq_false_iff, Bool.not_eq_false',
    decide_eq_false_iff_not, Nat.not_lt]
  tauto

/-- Claim C1, counterexample: with a Gemini key configured and Gemini returning
the well-formed array containing one item whose `words` is `[]`, `Generate(1)`
returns one record whose `words` list is empty — the provider path only
truncates `words` to at most 20 entries and never enforces the lower bound
`1 ≤ len(words)` (nor the requested count), so the claimed guarantee fails on
the provider path. -/
theorem claim1_counterexample :
    ((generateCategories ⟨true, false⟩ ⟨.parsed [⟨.str "x", .arr []⟩], .noText⟩ 1 0
        (fun _ => 0)).1.map fun d => d.words.length) = [0] := by
  decide

/-- Claim C1, amended: with zero configured providers (the fallback path),
`Generate(n)` returns exactly `n` records for every `n ≥ 0`, each with a
non-empty string `categoryName` and a `words` list of length between 1 and 20;
the provider path does not guarantee the count or the lower bound on
`words`. -/
theorem claim1_fallback_guarantee (run : ProviderRun) (n : Nat) (now : Int)
    (rho : Nat → Nat) :
    ((generateCategories ⟨false, false⟩ run n now rho).1.length = n)
    ∧ ∀ d ∈ (generateCategories ⟨false, false⟩ run n now rho).1,
        (∃ s, d.categoryName = JsVal.str s ∧ s ≠ "")
        ∧ 1 ≤ d.words.length ∧ d.words.length ≤ 20 := by
  have hg : (generateCategories ⟨false, false⟩ run n now rho).1
      = fallbackGenerate n now rho := by
    rcases generateCategories_eq ⟨false, false⟩ run n now rho with
      ⟨ds, h1, _⟩ | ⟨ds, _, h2, _⟩ | ⟨_, _, h3⟩
    · simp [providerAttempt] at h1
    · simp [providerAttempt] at h2
    · exact h3
  rw [hg]
  refine ⟨fallbackGenerate_length n now rho, ?_⟩
  intro d hd
  obtain ⟨i, k, rfl⟩ := fallbackGenerate_mem n now rho d hd
  exact ⟨⟨fallbackName rho i k, rfl, fallbackName_ne_empty rho i k⟩,
    fallbackDoc_words_pos now rho i k, fallbackDoc_words_le now rho i k⟩

/-- Claim C1, witness: with no providers, `Generate(3)` returns 3 records. -/
theorem claim1_witness :
    (generateCategories ⟨false, false⟩ ⟨.noText, .noText⟩ 3 0 (fun _ => 0)).1.length = 3 :=
  (claim1_fallback_guarantee ⟨.noText, .noText⟩ 3 0 (fun _ => 0)).1

/-- Claim C6, counterexample: with both providers configured and Gemini
returning a response that parses to the empty array, the chain returns the
empty result (0 records for `n = 5`) directly to the caller: it neither logs
anything nor proceeds to Mistral (whose response would have yielded a record)
nor to the fallback, so an empty result is not treated as a failure. -/
theorem claim6_counterexample :
    (generateCategories ⟨true, true⟩ ⟨.parsed [], .parsed [⟨.str "x", .arr [.str "a"]⟩]⟩
        5 0 (fun _ => 0)).1.length = 0
    ∧ (generateCategories ⟨true, true⟩ ⟨.parsed [], .parsed [⟨.str "x", .arr [.str "a"]⟩]⟩
        5 0 (fun _ => 0)).2 = [] := by
  exact ⟨rfl, rfl⟩

/-- Claim C6, amended: a provider attempt that throws (network error,
unparseable response, throwing normalization) is logged and the chain proceeds
as if that provider were absent; when no provider attempt returns a parsed
array the chain terminates at the infallible local fallback; no failure is
ever propagated (the chain is a total function).  However a successfully
parsed empty array is returned to the caller as-is. -/
theorem claim6_chain_degrades (env : Env) (run : ProviderRun) (n : Nat) (now : Int)
    (rho : Nat → Nat) :
    (providerAttempt env.geminiKey run.gemini now "gemini" = (none, true) →
        "Gemini generation failed" ∈ (generateCategories env run n now rho).2
        ∧ (generateCategories env run n now rho).1
            = (generateCategories ⟨false, env.mistralKey⟩ run n now rho).1)
    ∧ ((providerAttempt env.geminiKey run.gemini now "gemini").1 = none →
        (providerAttempt env.mistralKey run.mistral now "mistral").1 = none →
        (generateCategories env run n now rho).1 = fallbackGenerate n now rho) := by
  constructor
  · intro hg
    have hskip : providerAttempt false run.gemini now "gemini" = (none, false) := rfl
    rcases hmp : providerAttempt env.mistralKey run.mistral now "mistral" with ⟨m1, m2⟩
    cases m1 <;> cases m2 <;>
      simp [generateCategories, hg, hmp, hskip]
  · intro hg1 hm1
    rcases generateCategories_eq env run n now rho with
      ⟨ds, h1, _⟩ | ⟨ds, _, h2, _⟩ | ⟨_, _, h3⟩
    · rw [hg1] at h1; simp at h1
    · rw [hm1] at h2; simp at h2
    · exact h3

/-- Claim C6, witness: with only Gemini configured and its attempt throwing,
the failure is logged and the chain falls back to the local generator. -/
theorem claim6_witness :
    "Gemini generation failed" ∈ (generateCategories ⟨true, false⟩ ⟨.throws, .noText⟩
        3 0 (fun _ => 0)).2
    ∧ (generateCategories ⟨true, false⟩ ⟨.throws, .noText⟩ 3 0 (fun _ => 0)).1
        = fallbackGenerate 3 0 (fun _ => 0) :=
  ⟨((claim6_chain_degrades ⟨true, false⟩ ⟨.throws, .noText⟩ 3 0 (fun _ => 0)).1 rfl).1,
   (claim6_chain_degrades ⟨true, false⟩ ⟨.throws, .noText⟩ 3 0 (fun _ => 0)).2 rfl rfl⟩

/-- Claim C7, counterexample: with every random draw equal to 0, all five drawn
words of the first fallback record are the same string `apple_0`, so after the
`Set` de-duplication the stored record contains a single word — fewer than the
claimed minimum of 5. -/
theorem claim7_counterexample :
    ((fallbackGenerate 1 0 (fun _ => 0)).map fun d => d.words) = [["apple_0"]]
    ∧ ((fallbackGenerate 1 0 (fun _ => 0)).map fun d => d.words.length) = [1] := by
  exact ⟨by decide, by decide⟩

/-- Claim C7, amended: every fallback record draws between 5 and 20 pooled
words, but the stored `words` list is the de-duplicated truncation: it has
between 1 and 20 words (possibly fewer than 5) with no duplicates; the
`categoryName` is an adjective, a noun and a random number below 10000
separated by spaces, and the record is tagged `No-ai-fallback`. -/
theorem claim7_fallback_records (n : Nat) (now : Int) (rho : Nat → Nat)
    (hr : ∀ k, rho k < JSDENOM) :
    ∀ d ∈ fallbackGenerate n now rho,
      d.words.Nodup ∧ 1 ≤ d.words.length ∧ d.words.length ≤ 20
      ∧ d.ai = some "No-ai-fallback"
      ∧ ∃ a ∈ adjectives, ∃ b ∈ nouns, ∃ m : Nat, m < 10000
          ∧ d.categoryName = JsVal.str (a ++ " " ++ b ++ " " ++ toString m) := by
  intro d hd
  obtain ⟨i, k, rfl⟩ := fallbackGenerate_mem n now rho d hd
  refine ⟨fallbackDoc_words_nodup now rho i k, fallbackDoc_words_pos now rho i k,
    fallbackDoc_words_le now rho i k, rfl, ?_⟩
  refine ⟨adjectives.getD (i % adjectives.length) "",
    getD_mem_of_lt _ _ _ (Nat.mod_lt _ (by decide)),
    nouns.getD (i % nouns.length) "",
    getD_mem_of_lt _ _ _ (Nat.mod_lt _ (by decide)),
    jsFloor (rho k) 10000, jsFloor_lt _ _ (hr k) (by decide), rfl⟩

/-- Claim C7, witness: the all-zero draw stream is a valid stream of draws, and
the first record it generates satisfies the amended shape. -/
theorem claim7_witness :
    (fallbackDoc 0 (fun _ => 0) 0 0).words.Nodup
    ∧ 1 ≤ (fallbackDoc 0 (fun _ => 0) 0 0).words.length
    ∧ (fallbackDoc 0 (fun _ => 0) 0 0).words.length ≤ 20
    ∧ (fallbackDoc 0 (fun _ => 0) 0 0).ai = some "No-ai-fallback"
    ∧ ∃ a ∈ adjectives, ∃ b ∈ nouns, ∃ m : Nat, m < 10000
        ∧ (fallbackDoc 0 (fun _ => 0) 0 0).categoryName
            = JsVal.str (a ++ " " ++ b ++ " " ++ toString m) :=
  claim7_fallback_records 2 0 (fun _ => 0) (fun _ => by norm_num [JSDENOM])
    (fallbackDoc 0 (fun _ => 0) 0 0) (List.mem_cons_self _ _)

/-- Claim C3, counterexample: in the degraded-integrity state (the unique index
on `categoryName` was not created), `POST /categories` with a `categoryName`
already present succeeds with 201 and stores a second record with that name,
instead of the claimed unconditional 409 Conflict. -/
theorem claim3_counterexample :
    (postCategories ⟨[⟨0, .str "a", ["w"], 0, none⟩], 1, false⟩ (.str "a")
        (.arr [.str "w"]) 9).2 = .created 1
    ∧ (((postCategories ⟨[⟨0, .str "a", ["w"], 0, none⟩], 1, false⟩ (.str "a")
        (.arr [.str "w"]) 9).1.records.filter fun r => jsEq r.categoryName (.str "a")).length
        = 2) := by
  exact ⟨by decide, by decide⟩

/-- Claim C3, amended: when the unique index exists, `POST /categories` with a
valid body whose `categoryName` is already present always answers 409 Conflict
and leaves the store unchanged (no second record); without the index the
duplicate is stored. -/
theorem claim3_conflict_with_index (st : StoreState) (c w : JsVal) (now : Int)
    (hidx : st.hasUniqueIndex = true) (hdup : nameTaken st c = true)
    (hvalid : invalidBody c w = false) :
    postCategories st c w now = (st, .conflict) := by
  simp only [postCategories, hvalid, Bool.false_eq_true, if_false]
  simp [insertOneDoc, hidx, hdup]

/-- Claim C3, witness: with the index present and the name `a` already stored,
the duplicate create answers Conflict and the store is unchanged. -/
theorem claim3_witness :
    nameTaken ⟨[⟨0, .str "a", ["w"], 0, none⟩], 1, true⟩ (.str "a") = true
    ∧ postCategories ⟨[⟨0, .str "a", ["w"], 0, none⟩], 1, true⟩ (.str "a")
        (.arr [.str "w"]) 9
      = (⟨[⟨0, .str "a", ["w"], 0, none⟩], 1, true⟩, .conflict) :=
  ⟨by decide, claim3_conflict_with_index _ _ _ 9 rfl (by decide) (by decide)⟩

/-- Claim C8, counterexample: the claim says creation is rejected with 400
exactly when `categoryName` is not a non-empty string; but the code only
checks truthiness, so the body `{categoryName: 5, words: ["a"]}` — whose
`categoryName` is not a string at all — passes validation and is inserted
with 201. -/
theorem claim8_counterexample :
    specNonEmptyString (.num 5) = false
    ∧ (postCategories ⟨[], 0, true⟩ (.num 5) (.arr [.str "a"]) 0).2 = .created 0 := by
  exact ⟨by decide, by decide⟩

/-- Claim C8, amended: creation is rejected with 400, inserting nothing,
exactly when `categoryName` is falsy (so any truthy non-string value passes)
or `words` is not an array of 1–20 strings; every body passing this check is
handed to `insertOne`, and on success the response is 201 with the new id and
the document is appended. -/
theorem claim8_validation_truthy (st : StoreState) (c w : JsVal) (now : Int) :
    (invalidBody c w = true → postCategories st c w now = (st, .badRequest))
    ∧ (invalidBody c w = false → (st.hasUniqueIndex && nameTaken st c) = false →
        postCategories st c w now
          = ({ records := st.records ++ [⟨st.nextId, c, jsStrs w, now, none⟩],
               nextId := st.nextId + 1, hasUniqueIndex := st.hasUniqueIndex },
             .created st.nextId))
    ∧ (invalidBody c w = false ↔ truthy c = true ∧ isArray w = true
        ∧ 1 ≤ arrLength w ∧ arrLength w ≤ 20 ∧ allStrings w = true) := by
  refine ⟨?_, ?_, invalidBody_false_iff c w⟩
  · intro h
    simp [postCategories, h]
  · intro h1 h2
    simp only [postCategories, h1, Bool.false_eq_true, if_false]
    simp [insertOneDoc, h2]

/-- Claim C8, witness: a valid body is inserted, answering 201 with id 0. -/
theorem claim8_witness :
    invalidBody (.str "z") (.arr [.str "w"]) = false
    ∧ postCategories ⟨[], 0, true⟩ (.str "z") (.arr [.str "w"]) 5
        = (⟨[⟨0, .str "z", ["w"], 5, none⟩], 1, true⟩, .created 0) :=
  ⟨by decide,
   (claim8_validation_truthy ⟨[], 0, true⟩ (.str "z") (.arr [.str "w"]) 5).2.1
     (by decide) (by decide)⟩

/-- Claim C10, counterexample: the claim says every persisted record — also
those inserted via `POST /categories` — carries a `sourceTag`; but the POST
handler inserts `{categoryName, words, createdAt}` with no `ai` field, so the
stored record has no source tag. -/
theorem claim10_counterexample :
    ((postCategories ⟨[], 0, true⟩ (.str "a") (.arr [.str "w"]) 3).1.records.map
        fun r => r.ai) = [none] := by
  decide

/-- Claim C10, amended: records produced by the generation paths conform to
the shape with `words` of at most 20 strings and carry a `sourceTag`
(`gemini`, `mistral` or `No-ai-fallback`); records inserted via
`POST /categories` have `categoryName`, 1–20 `words` and `createdAt` but no
`sourceTag` field. -/
theorem claim10_source_tags (env : Env) (run : ProviderRun) (n : Nat) (now : Int)
    (rho : Nat → Nat) (st : StoreState) (c w : JsVal) (now2 : Int) :
    (∀ d ∈ (generateCategories env run n now rho).1,
        (d.ai = some "gemini" ∨ d.ai = some "mistral" ∨ d.ai = some "No-ai-fallback")
        ∧ d.words.length ≤ 20)
    ∧ (invalidBody c w = false → (st.hasUniqueIndex && nameTaken st c) = false →
        (postCategories st c w now2).1.records
          = st.records ++ [⟨st.nextId, c, jsStrs w, now2, none⟩]
        ∧ 1 ≤ (jsStrs w).length ∧ (jsStrs w).length ≤ 20) := by
  constructor
  · intro d hd
    rcases generateCategories_eq env run n now rho with
      ⟨ds, h1, h2⟩ | ⟨ds, _, h1, h2⟩ | ⟨_, _, h3⟩
    · rw [h2] at hd
      have hp := tryProvider_mem _ now "gemini" ds
        (providerAttempt_some _ _ _ _ _ h1) d hd
      exact ⟨Or.inl hp.1, hp.2⟩
    · rw [h2] at hd
      have hp := tryProvider_mem _ now "mistral" ds
        (providerAttempt_some _ _ _ _ _ h1) d hd
      exact ⟨Or.inr (Or.inl hp.1), hp.2⟩
    · rw [h3] at hd
      obtain ⟨i, k, rfl⟩ := fallbackGenerate_mem n now rho d hd
      exact ⟨Or.inr (Or.inr rfl), fallbackDoc_words_le now rho i k⟩
  · intro h1 h2
    obtain ⟨_, _, h3, h4, h5⟩ := (invalidBody_false_iff c w).mp h1
    refine ⟨?_, ?_, ?_⟩
    · simp only [postCategories, h1, Bool.false_eq_true, if_false]
      simp [insertOneDoc, h2]
    · rw [jsStrs_length_of_allStrings w h5]
      exact h3
    · rw [jsStrs_length_of_allStrings w h5]
      exact h4

/-- Claim C10, witness: a record created through POST has no `ai` tag and its
validated single word. -/
theorem claim10_witness :
    (postCategories ⟨[], 0, true⟩ (.str "q") (.arr [.str "w"]) 7).1.records
      = [⟨0, .str "q", ["w"], 7, none⟩] :=
  (((claim10_source_tags ⟨false, false⟩ ⟨.noText, .noText⟩ 0 0 (fun _ => 0)
      ⟨[], 0, true⟩ (.str "q") (.arr [.str "w"]) 7).2 (by decide) (by decide))).1

end WordApi
